import Mathlib

/-!
Shallow embedding of the UEBA incremental analyzer engine
(src/ueba/services/analyzer: pipeline.py, repository.py, baseline.py,
service.py, and src/ueba/logging/alert_logger.py).

Modelling conventions:
* Datetimes are UTC instants in whole seconds (an integer). The helper
  ensure_utc of repository.py normalises timezone-aware datetimes to UTC and
  assumes naive ones are UTC; in the instant model it is the identity and is
  not reproduced separately.
* Python floats on the analyzer data path are modelled as exact rationals;
  the standard deviation produced by the SQL stddev_pop aggregate is a real
  number (a square root).
* JSON payloads are association lists; the analyzer only ever inspects the
  top level of a payload and one nested object, so values are modelled one
  object level deep.
* Python exceptions are modelled with Except: a raising call returns
  Except.error carrying the exception kind.
-/

/-- Seconds in one UTC calendar day. -/
def secondsPerDay : Int := 86400

/-- repository.window_bounds: the enclosing UTC calendar-day window of an
instant, obtained by truncating to midnight (replace hour=minute=second=0)
and adding one day. Integer emod gives the floor behaviour of calendar
truncation for instants before the epoch as well. -/
def window_bounds (observed_at : Int) : Int × Int :=
  let start := observed_at - observed_at % secondsPerDay
  (start, start + secondsPerDay)

/-- Leaf JSON values as far as the analyzer inspects them. -/
inductive JLeaf where
  | jnum (q : ℚ)
  | jstr (s : String)
  | jbool (b : Bool)
  | jnull
deriving DecidableEq

/-- A JSON value: a leaf or one nested object (the analyzer reads only the
top level of a payload plus the object under the data key, so one level of
nesting is enough to express every inspected shape). -/
inductive JVal where
  | leaf (v : JLeaf)
  | jobj (fields : List (String × JLeaf))
deriving DecidableEq

/-- A JSON object payload: an association list of fields with unique keys. -/
abbrev Payload := List (String × JVal)

/-- Python truncation toward zero, as int() applied to a float. -/
def ratTrunc (q : ℚ) : Int :=
  q.num.tdiv q.den

/-- Python int(x) for a leaf value: floats truncate toward zero, canonical
integer strings parse, booleans become 0 or 1, and anything else raises
(modelled as none, matching the except-return-None guard in the source). -/
def pyIntLeaf : JLeaf → Option Int
  | .jnum q => some (ratTrunc q)
  | .jstr s => s.toInt?
  | .jbool b => some (if b then 1 else 0)
  | .jnull => none

/-- Python int(x) for a value: objects raise (none); leaves as above. -/
def pyInt : JVal → Option Int
  | .leaf v => pyIntLeaf v
  | .jobj _ => none

/-- pipeline._extract_severity_from_payload: a severity key at the top level
is converted first (failures return none without looking further); otherwise
a severity key inside a dict under the data key is converted; otherwise none.
A missing payload (None in Python, not a dict) yields none. -/
def extract_severity_from_payload : Option Payload → Option Int
  | none => none
  | some fields =>
    match fields.lookup "severity" with
    | some v => pyInt v
    | none =>
      match fields.lookup "data" with
      | some (.jobj d) =>
        match d.lookup "severity" with
        | some v => pyIntLeaf v
        | none => none
      | _ => none

/-- Python x or y on Optional[int] operands: both None and 0 are falsy, so
the right operand is returned whenever the left is None or 0. -/
def pyOrInt (a b : Option Int) : Option Int :=
  match a with
  | some v => if v = 0 then b else some v
  | none => b

/-- db.models.NormalizedEvent, the rows the analyzer reads. -/
structure NormalizedEvent where
  id : Int
  entity_id : Option Int
  event_type : String
  risk_score : Option ℚ
  observed_at : Int
  status : String := "active"
  deleted_at : Option Int := none
  normalized_payload : Option Payload := none
  original_payload : Option Payload := none
deriving DecidableEq

/-- pipeline._severity_from_event: the or-chain over the normalized payload,
the original payload and the precomputed risk score cast to int. -/
def severity_from_event (e : NormalizedEvent) : Option Int :=
  pyOrInt
    (pyOrInt (extract_severity_from_payload e.normalized_payload)
      (extract_severity_from_payload e.original_payload))
    (e.risk_score.map ratTrunc)

/-- pipeline.ExtractedFeatures. -/
structure ExtractedFeatures where
  event_count : Int
  highest_severity : Option Int
  last_observed_at : Int
  event_types : List String := []
deriving DecidableEq

/-- pipeline.RuleEvaluation; metadata values set by the default evaluator are
integers. -/
structure RuleEvaluation where
  triggered_rules : List String := []
  metadata : List (String × Int) := []
deriving DecidableEq

/-- Exception kinds raised on the modelled paths. -/
inductive PyError where
  | valueError (msg : String)
  | attributeError (attr : String)
  | multipleResultsFound
deriving DecidableEq

/-- The empty-input contract violation of the spec, raised by
SimpleFeatureExtractor.extract as a ValueError in the source. -/
def EmptyInputError : PyError :=
  .valueError "Cannot extract features from empty event list"

/-- SimpleFeatureExtractor.extract: raises on an empty batch, otherwise
counts events, takes the maximum of the resolvable severities (none when no
event resolves one), the maximum observed instant, and the sorted set of
event types. -/
def SimpleFeatureExtractor.extract (events : List NormalizedEvent) :
    Except PyError ExtractedFeatures :=
  match events with
  | [] => .error EmptyInputError
  | e :: es =>
    let evs := e :: es
    let severities := (evs.map severity_from_event).filterMap id
    let highest_severity := severities.max?
    let last_observed := (es.map (·.observed_at)).foldl max e.observed_at
    let event_types := List.insertionSort (· ≤ ·) (evs.map (·.event_type)).dedup
    .ok ⟨(evs.length : Int), highest_severity, last_observed, event_types⟩

/-- PlaceholderRuleEvaluator.evaluate: high_event_volume for more than ten
events, high_severity_detected for a highest severity of at least eight, with
the corresponding metadata entries. -/
def PlaceholderRuleEvaluator.evaluate (entity_id : Int)
    (features : ExtractedFeatures) (events : List NormalizedEvent) :
    RuleEvaluation :=
  let volume :=
    if features.event_count > 10 then
      (["high_event_volume"], [("event_count", features.event_count)])
    else ([], [])
  let severe :=
    match features.highest_severity with
    | some s =>
      if s ≥ 8 then (["high_severity_detected"], [("highest_severity", s)])
      else ([], [])
    | none => ([], [])
  ⟨volume.1 ++ severe.1, volume.2 ++ severe.2⟩

/-- SimpleScoring.calculate_score: event-count contribution capped at 40,
severity contribution highest/10*30 when present, 30 points per triggered
rule, capped at 100. -/
def SimpleScoring.calculate_score (entity_id : Int)
    (features : ExtractedFeatures) (rule_evaluation : RuleEvaluation) : ℚ :=
  let base := min ((features.event_count : ℚ) * 2) 40
  let severityBonus :=
    match features.highest_severity with
    | some s => (s : ℚ) / 10 * 30
    | none => 0
  let score := base + severityBonus + (rule_evaluation.triggered_rules.length : ℚ) * 30
  min score 100

/-- pipeline.AnalyzerResult, the pipeline output: no baseline fields. -/
structure AnalyzerResult where
  entity_id : Int
  window_start : Int
  window_end : Int
  features : ExtractedFeatures
  rule_evaluation : RuleEvaluation
  risk_score : ℚ
deriving DecidableEq

/-- AnalyzerPipeline.analyze with the default stages: extraction, then rule
evaluation on the extracted features, then scoring on both outputs. -/
def AnalyzerPipeline.analyze (entity_id window_start window_end : Int)
    (events : List NormalizedEvent) : Except PyError AnalyzerResult :=
  (SimpleFeatureExtractor.extract events).map fun features =>
    let rule_evaluation := PlaceholderRuleEvaluator.evaluate entity_id features events
    let risk_score := SimpleScoring.calculate_score entity_id features rule_evaluation
    ⟨entity_id, window_start, window_end, features, rule_evaluation, risk_score⟩

/-- repository.EntityEventWindow. -/
structure EntityEventWindow where
  entity_id : Int
  window_start : Int
  window_end : Int
  events : List NormalizedEvent
deriving DecidableEq

/-- The WHERE clause of fetch_entity_event_windows: non-null entity, not
soft-deleted, active status, observed inside the optional half-open
[since, until) range. -/
def eventInRange (since until' : Option Int) (e : NormalizedEvent) : Bool :=
  e.entity_id.isSome && e.deleted_at.isNone && (e.status == "active")
    && (match since with | some s => decide (s ≤ e.observed_at) | none => true)
    && (match until' with | some u => decide (e.observed_at < u) | none => true)

/-- The ORDER BY (entity_id, observed_at) relation of the event query. -/
def sqlEventLe (a b : NormalizedEvent) : Prop :=
  a.entity_id.getD 0 < b.entity_id.getD 0 ∨
    (a.entity_id.getD 0 = b.entity_id.getD 0 ∧ a.observed_at ≤ b.observed_at)

instance : DecidableRel sqlEventLe := fun a b => by
  unfold sqlEventLe; infer_instance

instance : IsTotal NormalizedEvent sqlEventLe :=
  ⟨by intro a b; unfold sqlEventLe; omega⟩

instance : IsTrans NormalizedEvent sqlEventLe :=
  ⟨by intro a b c hab hbc; unfold sqlEventLe at *; omega⟩

/-- The grouping key of fetch_entity_event_windows: entity id paired with the
calendar-day window start of the observation (the filtered rows all carry a
non-null entity id, which the getD default never masks). -/
def eventKey (e : NormalizedEvent) : Int × Int :=
  (e.entity_id.getD 0, (window_bounds e.observed_at).1)

/-- The ascending (entity id, window start) order on grouping keys used by
sorted(grouped.keys()). -/
def keyLe (k1 k2 : Int × Int) : Prop :=
  k1.1 < k2.1 ∨ (k1.1 = k2.1 ∧ k1.2 ≤ k2.2)

instance : DecidableRel keyLe := fun a b => by
  unfold keyLe; infer_instance

instance : IsTotal (Int × Int) keyLe :=
  ⟨by intro a b; unfold keyLe; omega⟩

instance : IsTrans (Int × Int) keyLe :=
  ⟨by intro a b c hab hbc; unfold keyLe at *; omega⟩

/-- The rows returned by the event query of fetch_entity_event_windows, in
query order. The table db is a list in insertion order; the sort is the
ORDER BY of the statement. -/
def fetchSorted (db : List NormalizedEvent) (since until' : Option Int) :
    List NormalizedEvent :=
  List.insertionSort sqlEventLe (db.filter (eventInRange since until'))

/-- The distinct grouping keys of those rows, in ascending order, as produced
by sorted(grouped.keys()). -/
def fetchKeys (db : List NormalizedEvent) (since until' : Option Int) :
    List (Int × Int) :=
  List.insertionSort keyLe ((fetchSorted db since until').map eventKey).dedup

/-- AnalyzerRepository.fetch_entity_event_windows: filter, group by (entity,
day start), one window per non-empty group with end one day after start, in
ascending key order; a dict grouping of a sequence keeps each group in
sequence order, which is the filter of the sorted rows by the group key. -/
def fetch_entity_event_windows (db : List NormalizedEvent)
    (since until' : Option Int) : List EntityEventWindow :=
  (fetchKeys db since until').map fun k =>
    ⟨k.1, k.2, k.2 + secondsPerDay,
      (fetchSorted db since until').filter (fun e => decide (eventKey e = k))⟩

/-- The generator marker written into every reason payload. -/
def REASON_GENERATOR : String := "analyzer_service"

/-- The kind marker written into every reason payload. -/
def REASON_KIND : String := "daily_rollup"

/-- The structured reason document persisted with every result. The source
serialises it to a JSON string with sorted keys; the model keeps it
structured, so equality of reasons is equality of the serialised strings. -/
structure ReasonPayload where
  generator : String
  kind : String
  window_start : Int
  window_end : Int
  event_count : Int
  highest_severity : Option Int
  last_observed_at : Int
  triggered_rules : List String
  rule_metadata : List (String × Int)
  baseline_avg : ℚ
  baseline_sigma : ℝ
  delta : ℚ
  is_anomalous : Prop

/-- Modelled from the spec: the baseline-enriched AnalyzerResult of the
richer service variant (spec section 3 AnalyzerResult), which is absent from
the source tree; repository.persist_result reads its baseline_avg,
baseline_sigma, delta and is_anomalous attributes, none of which exist on
pipeline.AnalyzerResult. -/
structure EnrichedAnalyzerResult where
  entity_id : Int
  window_start : Int
  window_end : Int
  features : ExtractedFeatures
  rule_evaluation : RuleEvaluation
  risk_score : ℚ
  baseline_avg : ℚ
  baseline_sigma : ℝ
  delta : ℚ
  is_anomalous : Prop

/-- db.models.EntityRiskHistory, the persisted rows. -/
structure EntityRiskHistory where
  entity_id : Int
  normalized_event_id : Option Int
  risk_score : ℚ
  observed_at : Int
  reason : Option ReasonPayload
  deleted_at : Option Int

/-- The reason payload persist_result builds from a result. -/
def mk_reason (r : EnrichedAnalyzerResult) : ReasonPayload :=
  ⟨REASON_GENERATOR, REASON_KIND, r.window_start, r.window_end,
    r.features.event_count, r.features.highest_severity,
    r.features.last_observed_at, r.rule_evaluation.triggered_rules,
    r.rule_evaluation.metadata, r.baseline_avg, r.baseline_sigma, r.delta,
    r.is_anomalous⟩

/-- The WHERE clause of _find_history: same entity, same observed_at, not
soft-deleted. -/
def historyKeyMatches (entity_id observed_at : Int) (h : EntityRiskHistory) :
    Bool :=
  decide (h.entity_id = entity_id) && decide (h.observed_at = observed_at)
    && h.deleted_at.isNone

/-- AnalyzerRepository._find_history: scalar_one_or_none returns the unique
matching row, none when there is none, and raises MultipleResultsFound when
the key is ambiguous. -/
def find_history (db : List EntityRiskHistory) (entity_id observed_at : Int) :
    Except PyError (Option EntityRiskHistory) :=
  match db.filter (historyKeyMatches entity_id observed_at) with
  | [] => .ok none
  | [h] => .ok (some h)
  | _ => .error .multipleResultsFound

/-- The in-place overwrite of the update branch of persist_result: the
matched live row gets the new risk score and reason, every other row is
untouched. -/
def persistUpd (result : EnrichedAnalyzerResult) (h : EntityRiskHistory) :
    EntityRiskHistory :=
  if historyKeyMatches result.entity_id result.window_end h then
    { h with risk_score := result.risk_score, reason := some (mk_reason result) }
  else h

/-- The freshly created row of the insert branch of persist_result. -/
def newHistoryRow (result : EnrichedAnalyzerResult) : EntityRiskHistory :=
  ⟨result.entity_id, none, result.risk_score, result.window_end,
    some (mk_reason result), none⟩

/-- AnalyzerRepository.persist_result: upsert keyed by (entity id,
observed_at = window end): overwrite risk_score and reason of the existing
live row in place, or append one new row with observed_at = window end. -/
def persist_result (db : List EntityRiskHistory)
    (result : EnrichedAnalyzerResult) : Except PyError (List EntityRiskHistory) :=
  match find_history db result.entity_id result.window_end with
  | .error e => .error e
  | .ok (some _) => .ok (db.map (persistUpd result))
  | .ok none => .ok (db ++ [newHistoryRow result])

/-- AnalyzerRepository.get_latest_checkpoint: the maximum observed_at among
rows whose reason is non-null and contains the generator marker of this
engine; the substring test on the serialised JSON is modelled as the
generator field holding the marker. -/
def get_latest_checkpoint (db : List EntityRiskHistory) : Option Int :=
  (db.filterMap fun h =>
    match h.reason with
    | some r => if r.generator = REASON_GENERATOR then some h.observed_at else none
    | none => none).max?

/-- baseline.BaselineStats: sigma comes from the stddev_pop SQL aggregate,
a real square root. -/
structure BaselineStats where
  avg : ℚ
  sigma : ℝ

/-- baseline.BaselineCalculator state: configuration plus the per-entity
cache dict, an association list here. Defaults are the documented 30-day
window and 3.0 multiplier (the env-var overrides are configuration input). -/
structure BaselineCalculator where
  window_days : Int := 30
  sigma_multiplier : ℚ := 3
  cache : List (Int × BaselineStats) := []

/-- Arithmetic mean of a list of scores (the SQL avg aggregate on a
non-empty input). -/
def meanQ (scores : List ℚ) : ℚ :=
  scores.sum / (scores.length : ℚ)

/-- Population standard deviation of a list of scores (the SQL stddev_pop
aggregate on a non-empty input). -/
noncomputable def popSigma (scores : List ℚ) : ℝ :=
  Real.sqrt (((scores.map fun x => (x - meanQ scores) ^ 2).sum / (scores.length : ℚ) : ℚ) : ℝ)

/-- The WHERE clause of the baseline query: same entity, not soft-deleted,
observed inside [until - window_days days, until). -/
def baselineRowSelected (window_days entity_id until' : Int)
    (h : EntityRiskHistory) : Bool :=
  decide (h.entity_id = entity_id) && h.deleted_at.isNone
    && decide (until' - window_days * secondsPerDay ≤ h.observed_at)
    && decide (h.observed_at < until')

/-- BaselineCalculator.get_baseline: return the cached stats for the entity
when present; otherwise aggregate the selected rows (SQL avg and stddev_pop
return NULL on an empty input, and the or-0.0 guards turn NULL into 0.0),
cache and return. The updated calculator is returned alongside. -/
noncomputable def get_baseline (cal : BaselineCalculator)
    (db : List EntityRiskHistory) (entity_id until' : Int) :
    BaselineStats × BaselineCalculator :=
  match cal.cache.lookup entity_id with
  | some stats => (stats, cal)
  | none =>
    let scores := (db.filter
      (baselineRowSelected cal.window_days entity_id until')).map (·.risk_score)
    let avg : ℚ := if scores.isEmpty then 0 else meanQ scores
    let sigma : ℝ := if scores.isEmpty then 0 else popSigma scores
    let stats : BaselineStats := ⟨avg, sigma⟩
    (stats, { cal with cache := (entity_id, stats) :: cal.cache })

/-- BaselineCalculator.is_anomalous: flag iff the score strictly exceeds
avg + sigma_multiplier * sigma, delta = score - avg returned signed either
way; the updated calculator (the get_baseline cache) is returned alongside. -/
noncomputable def is_anomalous (cal : BaselineCalculator)
    (db : List EntityRiskHistory) (entity_id until' : Int) (risk_score : ℚ) :
    (Prop × ℚ) × BaselineCalculator :=
  let r := get_baseline cal db entity_id until'
  let threshold : ℝ := (r.1.avg : ℝ) + (cal.sigma_multiplier : ℝ) * r.1.sigma
  (((risk_score : ℝ) > threshold, risk_score - r.1.avg), r.2)

/-- One line of the alert log written by AlertLogger.log_anomaly; the
wall-clock timestamp field is not modelled. -/
structure AlertRecord where
  entity_id : Int
  risk_score : ℚ
  baseline_avg : ℚ
  baseline_sigma : ℝ
  delta : ℚ
  triggered_rules : List String

/-- AlertLogger.log_anomaly: append one structured record to the log. -/
def log_anomaly (log : List AlertRecord) (rec : AlertRecord) :
    List AlertRecord :=
  log ++ [rec]

/-- service.default_until: the start of the current UTC day. -/
def default_until (now : Int) : Int :=
  now - now % secondsPerDay

/-- The range guard of run_once: a checkpoint at or past the requested end
short-circuits the run. -/
def checkpoint_short_circuits (checkpoint : Option Int) (untilV : Int) : Bool :=
  match checkpoint with
  | some c => decide (untilV ≤ c)
  | none => false

/-- The call repository.persist_result(result) as it occurs inside the
run_once of service.py: persist_result builds its reason payload from
result.baseline_avg, result.baseline_sigma, result.delta and
result.is_anomalous, attributes that pipeline.AnalyzerResult does not have,
so the first of those attribute accesses raises AttributeError before
anything is written. -/
def persist_pipeline_result (db : List EntityRiskHistory)
    (result : AnalyzerResult) : Except PyError (List EntityRiskHistory) :=
  .error (.attributeError "baseline_avg")

/-- AnalyzerService.run_once as written in service.py: resolve until and the
checkpoint, short-circuit when the checkpoint is at or past until, fetch the
windows, and for each window run the pipeline and persist the result,
returning the number of processed windows and the resulting history rows.
No baseline enrichment and no alert logging appear in this variant. -/
def run_once_src (events_db : List NormalizedEvent)
    (history_db : List EntityRiskHistory) (since until' : Option Int)
    (now : Int) : Except PyError (Nat × List EntityRiskHistory) :=
  let untilV := until'.getD (default_until now)
  let checkpoint := since <|> get_latest_checkpoint history_db
  if checkpoint_short_circuits checkpoint untilV then
    .ok (0, history_db)
  else
    let windows := fetch_entity_event_windows events_db checkpoint (some untilV)
    if windows.isEmpty then
      .ok (0, history_db)
    else
      windows.foldlM
        (fun acc w =>
          (AnalyzerPipeline.analyze w.entity_id w.window_start w.window_end
            w.events).bind fun result =>
            (persist_pipeline_result acc.2 result).map fun db2 =>
              (acc.1 + 1, db2))
        ((0 : Nat), history_db)

/-- C7 reference definition, written from the spec words: the average and
population standard deviation of the entity persisted, non-deleted
risk-history scores whose observed_at lies in [until - windowDays, until),
and avg = 0, sigma = 0 when no such history exists. -/
noncomputable def baseline_spec (window_days : Int) (db : List EntityRiskHistory)
    (entity_id until' : Int) : BaselineStats :=
  let scores := (db.filter fun h =>
    decide (h.entity_id = entity_id ∧ h.deleted_at = none ∧
      until' - window_days * secondsPerDay ≤ h.observed_at ∧
      h.observed_at < until')).map (·.risk_score)
  if scores = [] then ⟨0, 0⟩ else ⟨meanQ scores, popSigma scores⟩

/-- Key uniqueness of the history table: no two live rows share the upsert
key (entity id, observed_at). The unique-row contract scalar_one_or_none
relies on. -/
def KeyUnique (db : List EntityRiskHistory) : Prop :=
  db.Pairwise fun a b => a.deleted_at = none → b.deleted_at = none →
    (a.entity_id, a.observed_at) ≠ (b.entity_id, b.observed_at)

/-- C6: feature extraction on zero events fails with the EmptyInputError,
and on every non-empty event sequence it returns ExtractedFeatures. -/
theorem c6_extract_empty_input :
    SimpleFeatureExtractor.extract [] = .error EmptyInputError
      ∧ ∀ (e : NormalizedEvent) (es : List NormalizedEvent),
        ∃ f, SimpleFeatureExtractor.extract (e :: es) = .ok f := by
  exact ⟨rfl, fun e es => ⟨_, rfl⟩⟩

/-- C4 counterexample: an ExtractedFeatures value with one event and a
present highest severity of minus one hundred makes the default scoring
strategy return a negative score, so the result does not always lie in the
interval from 0 to 100. -/
theorem c4_scoring_counterexample :
    SimpleScoring.calculate_score 100 ⟨1, some (-100), 0, []⟩ ⟨[], []⟩ < 0 := by
  norm_num [SimpleScoring.calculate_score]

/-- C4 (amended): the default scoring strategy returns exactly
min(event_count * 2, 40) + (highest_severity / 10 * 30 when present, else 0)
+ 30 * number of triggered rules, clamped to at most 100; the result is
always at most 100, and lies in the interval from 0 to 100 whenever the
event count is non-negative and any present highest severity is
non-negative; for event_count = 50, highest severity 10 and two triggered
rules the returned score is 100, not 130. -/
theorem c4_scoring_amended :
    ∀ (eid : Int) (f : ExtractedFeatures) (r : RuleEvaluation),
      SimpleScoring.calculate_score eid f r
          = min (min ((f.event_count : ℚ) * 2) 40
              + (Option.elim f.highest_severity 0 fun s => (s : ℚ) / 10 * 30)
              + 30 * (r.triggered_rules.length : ℚ)) 100
        ∧ SimpleScoring.calculate_score eid f r ≤ 100
        ∧ (0 ≤ f.event_count → (∀ s, f.highest_severity = some s → 0 ≤ s) →
            0 ≤ SimpleScoring.calculate_score eid f r)
        ∧ SimpleScoring.calculate_score eid ⟨50, some 10, 0, []⟩
            ⟨["r1", "r2"], []⟩ = 100 := by
  intro eid f r
  refine ⟨?_, ?_, ?_, ?_⟩
  · cases h : f.highest_severity <;>
      simp [SimpleScoring.calculate_score, h, Option.elim, mul_comm]
  · exact min_le_right _ _
  · intro hcount hsev
    have hbase : (0 : ℚ) ≤ min ((f.event_count : ℚ) * 2) 40 := by
      have : (0 : ℚ) ≤ (f.event_count : ℚ) := by exact_mod_cast hcount
      have h2 : (0 : ℚ) ≤ (f.event_count : ℚ) * 2 := by positivity
      exact le_min h2 (by norm_num)
    have hsev' : (0 : ℚ) ≤
        (match f.highest_severity with
          | some s => (s : ℚ) / 10 * 30
          | none => 0) := by
      cases h : f.highest_severity with
      | none => simp
      | some s =>
        have hs : (0 : Int) ≤ s := hsev s h
        have : (0 : ℚ) ≤ (s : ℚ) := by exact_mod_cast hs
        simp only []
        positivity
    have hlen : (0 : ℚ) ≤ (r.triggered_rules.length : ℚ) * 30 := by positivity
    have hsum : (0 : ℚ) ≤ min ((f.event_count : ℚ) * 2) 40
        + (match f.highest_severity with
            | some s => (s : ℚ) / 10 * 30
            | none => 0)
        + (r.triggered_rules.length : ℚ) * 30 := by
      have := add_nonneg (add_nonneg hbase hsev') hlen
      exact this
    have : (0 : ℚ) ≤ min (min ((f.event_count : ℚ) * 2) 40
        + (match f.highest_severity with
            | some s => (s : ℚ) / 10 * 30
            | none => 0)
        + (r.triggered_rules.length : ℚ) * 30) 100 :=
      le_min hsum (by norm_num)
    simpa [SimpleScoring.calculate_score] using this
  · norm_num [SimpleScoring.calculate_score]

/-- C4 witness: the amended theorem applied at a concrete feature set. -/
theorem c4_scoring_amended_witness :
    (0 : ℚ) ≤ SimpleScoring.calculate_score 1 ⟨3, some 5, 0, []⟩ ⟨[], []⟩ :=
  (c4_scoring_amended 1 ⟨3, some 5, 0, []⟩ ⟨[], []⟩).2.2.1 (by decide)
    (by intro s hs; simp at hs; omega)

/-- C5 counterexample: a payload whose top-level severity key resolves to
the numeric value 0 does not determine the resolved severity; the or-chain
falls through and the risk-score fallback 7 is returned instead. -/
theorem c5_severity_counterexample :
    extract_severity_from_payload (some [("severity", .leaf (.jnum 0))]) = some 0
      ∧ severity_from_event ⟨1, some 1, "login", some 7, 0, "active", none,
          some [("severity", .leaf (.jnum 0))], none⟩ = some 7 := by
  constructor <;> rfl

/-- C5 (amended): severity is resolved in the fixed order top-level severity
key, severity key nested under a data sub-object (this inside the normalized
payload and then the original payload), then the precomputed risk
contribution cast to an integer, else null; a source earlier in the order
determines the resolved severity when it yields a nonzero numeric value,
while a numeric 0 (like a missing or non-numeric value) falls through to the
later sources. -/
theorem c5_severity_resolution :
    ∀ (e : NormalizedEvent),
      (∀ v : Int, extract_severity_from_payload e.normalized_payload = some v →
        v ≠ 0 → severity_from_event e = some v)
      ∧ ((extract_severity_from_payload e.normalized_payload = none ∨
            extract_severity_from_payload e.normalized_payload = some 0) →
          ∀ v : Int, extract_severity_from_payload e.original_payload = some v →
            v ≠ 0 → severity_from_event e = some v)
      ∧ ((extract_severity_from_payload e.normalized_payload = none ∨
            extract_severity_from_payload e.normalized_payload = some 0) →
          (extract_severity_from_payload e.original_payload = none ∨
            extract_severity_from_payload e.original_payload = some 0) →
          severity_from_event e = e.risk_score.map ratTrunc)
      ∧ (∀ (p : Payload) (jv : JVal), p.lookup "severity" = some jv →
          extract_severity_from_payload (some p) = pyInt jv)
      ∧ (∀ (p : Payload) (d : List (String × JLeaf)),
          p.lookup "severity" = none → p.lookup "data" = some (.jobj d) →
          extract_severity_from_payload (some p)
            = (d.lookup "severity").bind pyIntLeaf) := by
  intro e
  refine ⟨?_, ?_, ?_, ?_, ?_⟩
  · intro v hv hne
    simp [severity_from_event, pyOrInt, hv, hne]
  · rintro (h | h) v hv hne <;>
      simp [severity_from_event, pyOrInt, h, hv, hne]
  · rintro (h1 | h1) (h2 | h2) <;>
      cases hr : e.risk_score <;>
        simp [severity_from_event, pyOrInt, h1, h2, hr]
  · intro p jv hv
    simp [extract_severity_from_payload, hv]
  · intro p d hnone hdata
    cases hl : d.lookup "severity" <;>
      simp [extract_severity_from_payload, hnone, hdata, hl]

/-- C5 witness: the amended resolution applied to an event whose normalized
payload carries a nonzero top-level severity. -/
theorem c5_severity_resolution_witness :
    severity_from_event ⟨2, some 1, "login", none, 0, "active", none,
      some [("severity", .leaf (.jnum 5))], none⟩ = some 5 :=
  (c5_severity_resolution _).1 5 (by decide) (by decide)

/-- C9: within one calculator instance the baseline is memoized per entity:
after any get_baseline call for an entity, a later call for the same entity
with any until instant and any (possibly changed) backing store returns the
first call result unchanged, cache included. -/
theorem c9_baseline_memoized :
    ∀ (cal : BaselineCalculator) (db : List EntityRiskHistory) (eid u : Int)
      (db2 : List EntityRiskHistory) (u2 : Int),
      get_baseline (get_baseline cal db eid u).2 db2 eid u2
        = get_baseline cal db eid u := by
  intro cal db eid u db2 u2
  cases h : cal.cache.lookup eid with
  | some s =>
    simp [get_baseline, h]
  | none =>
    simp [get_baseline, h, List.lookup]

/-- Helper: the baseline WHERE clause equals the predicate written from the
spec words. -/
theorem baselineRowSelected_eq_decide (wd eid u : Int) (h : EntityRiskHistory) :
    baselineRowSelected wd eid u h
      = decide (h.entity_id = eid ∧ h.deleted_at = none ∧
          u - wd * secondsPerDay ≤ h.observed_at ∧ h.observed_at < u) := by
  cases hd : h.deleted_at <;>
    simp [baselineRowSelected, hd, Bool.and_assoc]

/-- C7: on a fresh calculator, get_baseline returns exactly the average and
population standard deviation of the entity non-deleted risk-history scores
with observed_at in [until - windowDays, until) (avg = 0 and sigma = 0 when
no such history exists), and a history row whose observed_at equals until is
strictly excluded: adding one changes nothing. -/
theorem c7_get_baseline_spec :
    (∀ (wd : Int) (sm : ℚ) (db : List EntityRiskHistory) (eid u : Int),
        (get_baseline ⟨wd, sm, []⟩ db eid u).1 = baseline_spec wd db eid u)
      ∧ ∀ (wd : Int) (sm : ℚ) (db : List EntityRiskHistory) (eid u : Int)
          (nid : Option Int) (rs : ℚ) (rsn : Option ReasonPayload),
          (get_baseline ⟨wd, sm, []⟩ (⟨eid, nid, rs, u, rsn, none⟩ :: db) eid u).1
            = (get_baseline ⟨wd, sm, []⟩ db eid u).1 := by
  constructor
  · intro wd sm db eid u
    have hfilter : (db.filter fun h =>
        decide (h.entity_id = eid ∧ h.deleted_at = none ∧
          u - wd * secondsPerDay ≤ h.observed_at ∧ h.observed_at < u))
        = db.filter (baselineRowSelected wd eid u) :=
      (List.filter_congr fun h _ => baselineRowSelected_eq_decide wd eid u h).symm
    have hlhs : (get_baseline ⟨wd, sm, []⟩ db eid u).1
        = ⟨if ((db.filter (baselineRowSelected wd eid u)).map
              (·.risk_score)).isEmpty then 0
            else meanQ ((db.filter (baselineRowSelected wd eid u)).map
              (·.risk_score)),
          if ((db.filter (baselineRowSelected wd eid u)).map
              (·.risk_score)).isEmpty then 0
            else popSigma ((db.filter (baselineRowSelected wd eid u)).map
              (·.risk_score))⟩ := rfl
    have hrhs : baseline_spec wd db eid u
        = if ((db.filter (baselineRowSelected wd eid u)).map
              (·.risk_score)) = [] then ⟨0, 0⟩
          else ⟨meanQ ((db.filter (baselineRowSelected wd eid u)).map
              (·.risk_score)),
            popSigma ((db.filter (baselineRowSelected wd eid u)).map
              (·.risk_score))⟩ := by
      unfold baseline_spec
      rw [hfilter]
    rw [hlhs, hrhs]
    by_cases h : ((db.filter (baselineRowSelected wd eid u)).map
        (·.risk_score)) = []
    · simp [h]
    · have hne : ((db.filter (baselineRowSelected wd eid u)).map
          (·.risk_score)).isEmpty = false := by
        simpa [List.isEmpty_iff] using h
      simp [h, hne]
  · intro wd sm db eid u nid rs rsn
    have hdrop : List.filter (baselineRowSelected wd eid u)
        (⟨eid, nid, rs, u, rsn, none⟩ :: db)
          = db.filter (baselineRowSelected wd eid u) := by
      simp [List.filter, baselineRowSelected]
    simp only [get_baseline, List.lookup, hdrop]

/-- Helper: the concrete two-row history used for the C8 example evaluates
to baseline avg 20 and sigma 5. -/
theorem c8_concrete_baseline :
    (get_baseline ⟨30, 3, []⟩
      [⟨1, none, 15, 1705276700, none, none⟩,
       ⟨1, none, 25, 1705276600, none, none⟩] 1 1705276800).1
      = ⟨20, 5⟩ := by
  have hscores : (List.filter (baselineRowSelected 30 1 1705276800)
      [⟨1, none, 15, 1705276700, none, none⟩,
       ⟨1, none, 25, 1705276600, none, none⟩]).map (·.risk_score)
      = [15, 25] := by
    simp only [List.filter, baselineRowSelected]
    norm_num [secondsPerDay]
  have hgb : (get_baseline ⟨30, 3, []⟩
      [⟨1, none, 15, 1705276700, none, none⟩,
       ⟨1, none, 25, 1705276600, none, none⟩] 1 1705276800).1
      = ⟨if ((List.filter (baselineRowSelected 30 1 1705276800)
            [⟨1, none, 15, 1705276700, none, none⟩,
             ⟨1, none, 25, 1705276600, none, none⟩]).map
              (·.risk_score)).isEmpty then 0
          else meanQ ((List.filter (baselineRowSelected 30 1 1705276800)
            [⟨1, none, 15, 1705276700, none, none⟩,
             ⟨1, none, 25, 1705276600, none, none⟩]).map (·.risk_score)),
        if ((List.filter (baselineRowSelected 30 1 1705276800)
            [⟨1, none, 15, 1705276700, none, none⟩,
             ⟨1, none, 25, 1705276600, none, none⟩]).map
              (·.risk_score)).isEmpty then 0
          else popSigma ((List.filter (baselineRowSelected 30 1 1705276800)
            [⟨1, none, 15, 1705276700, none, none⟩,
             ⟨1, none, 25, 1705276600, none, none⟩]).map (·.risk_score))⟩ :=
    rfl
  rw [hgb, hscores]
  have hmean : meanQ [15, 25] = 20 := by
    norm_num [meanQ]
  have hvar : (([15, 25].map fun x => (x - meanQ [15, 25]) ^ 2).sum
      / (([15, 25] : List ℚ).length : ℚ) : ℚ) = 25 := by
    norm_num [meanQ]
  have hsigma : popSigma [15, 25] = 5 := by
    unfold popSigma
    rw [hvar, show ((25 : ℚ) : ℝ) = 5 ^ 2 by norm_num,
      Real.sqrt_sq (by norm_num)]
  simp [hmean, hsigma]

/-- C8: is_anomalous returns the pair (flag, delta) with the flag holding iff
the score strictly exceeds avg + sigma multiplier * sigma for the entity
baseline and delta = score - avg returned signed regardless of the flag; on
a baseline with avg 20 and sigma 5 under the default multiplier 3, a score
of 40 is flagged with delta 20 while a score of 34 is not flagged. -/
theorem c8_is_anomalous_spec :
    (∀ (cal : BaselineCalculator) (db : List EntityRiskHistory) (eid u : Int)
        (score : ℚ),
        ((is_anomalous cal db eid u score).1.1 ↔
          (score : ℝ) > ((get_baseline cal db eid u).1.avg : ℝ)
            + (cal.sigma_multiplier : ℝ) * (get_baseline cal db eid u).1.sigma)
        ∧ (is_anomalous cal db eid u score).1.2
            = score - (get_baseline cal db eid u).1.avg)
    ∧ (is_anomalous ⟨30, 3, []⟩
        [⟨1, none, 15, 1705276700, none, none⟩,
         ⟨1, none, 25, 1705276600, none, none⟩] 1 1705276800 40).1.1
    ∧ (is_anomalous ⟨30, 3, []⟩
        [⟨1, none, 15, 1705276700, none, none⟩,
         ⟨1, none, 25, 1705276600, none, none⟩] 1 1705276800 40).1.2 = 20
    ∧ ¬ (is_anomalous ⟨30, 3, []⟩
        [⟨1, none, 15, 1705276700, none, none⟩,
         ⟨1, none, 25, 1705276600, none, none⟩] 1 1705276800 34).1.1 := by
  refine ⟨fun cal db eid u score => ⟨Iff.rfl, rfl⟩, ?_, ?_, ?_⟩
  · show ((40 : ℚ) : ℝ) > ((get_baseline ⟨30, 3, []⟩
        [⟨1, none, 15, 1705276700, none, none⟩,
         ⟨1, none, 25, 1705276600, none, none⟩] 1 1705276800).1.avg : ℝ)
      + ((3 : ℚ) : ℝ) * (get_baseline ⟨30, 3, []⟩
        [⟨1, none, 15, 1705276700, none, none⟩,
         ⟨1, none, 25, 1705276600, none, none⟩] 1 1705276800).1.sigma
    rw [c8_concrete_baseline]
    norm_num
  · show (40 : ℚ) - (get_baseline ⟨30, 3, []⟩
        [⟨1, none, 15, 1705276700, none, none⟩,
         ⟨1, none, 25, 1705276600, none, none⟩] 1 1705276800).1.avg = 20
    rw [c8_concrete_baseline]
    norm_num
  · show ¬ (((34 : ℚ) : ℝ) > ((get_baseline ⟨30, 3, []⟩
        [⟨1, none, 15, 1705276700, none, none⟩,
         ⟨1, none, 25, 1705276600, none, none⟩] 1 1705276800).1.avg : ℝ)
      + ((3 : ℚ) : ℝ) * (get_baseline ⟨30, 3, []⟩
        [⟨1, none, 15, 1705276700, none, none⟩,
         ⟨1, none, 25, 1705276600, none, none⟩] 1 1705276800).1.sigma)
    rw [c8_concrete_baseline]
    norm_num

/-- Helper: the find_history WHERE clause in propositional form. -/
theorem historyKeyMatches_iff (eid oat : Int) (h : EntityRiskHistory) :
    historyKeyMatches eid oat h = true ↔
      h.entity_id = eid ∧ h.observed_at = oat ∧ h.deleted_at = none := by
  cases hd : h.deleted_at <;> simp [historyKeyMatches, hd]

/-- Helper: under key uniqueness at most one live row matches an upsert
key. -/
theorem keyUnique_filter_le_one (eid oat : Int) :
    ∀ (db : List EntityRiskHistory), KeyUnique db →
      (db.filter (historyKeyMatches eid oat)).length ≤ 1 := by
  intro db
  induction db with
  | nil => intro _; simp
  | cons h t ih =>
    intro hdb
    rw [KeyUnique, List.pairwise_cons] at hdb
    obtain ⟨hhead, htail⟩ := hdb
    by_cases hm : historyKeyMatches eid oat h = true
    · have hemp : t.filter (historyKeyMatches eid oat) = [] := by
        rw [List.filter_eq_nil_iff]
        intro b hb hmb
        obtain ⟨he, ho, hd⟩ := (historyKeyMatches_iff eid oat h).1 hm
        obtain ⟨he2, ho2, hd2⟩ := (historyKeyMatches_iff eid oat b).1 hmb
        exact hhead b hb hd hd2 (by rw [he, ho, he2, ho2])
      simp [List.filter_cons, hm, hemp]
    · have hm' : historyKeyMatches eid oat h = false := by simpa using hm
      simp only [List.filter_cons, hm', Bool.false_eq_true, if_false]
      exact ih htail

/-- Helper: a list of length at most one is empty or a singleton. -/
theorem list_length_le_one {α : Type} (l : List α) (hl : l.length ≤ 1) :
    l = [] ∨ ∃ x, l = [x] := by
  cases l with
  | nil => exact Or.inl rfl
  | cons x t =>
    cases t with
    | nil => exact Or.inr ⟨x, rfl⟩
    | cons y t2 => simp at hl

/-- Helper: the in-place overwrite leaves the upsert key fields and the
soft-delete marker untouched, so key matching is preserved. -/
theorem persistUpd_preserves_match (r : EnrichedAnalyzerResult)
    (eid oat : Int) (h : EntityRiskHistory) :
    historyKeyMatches eid oat (persistUpd r h) = historyKeyMatches eid oat h := by
  by_cases hm : historyKeyMatches r.entity_id r.window_end h = true
  · simp only [persistUpd, hm, if_true]
    rfl
  · simp only [persistUpd, hm, Bool.false_eq_true, if_false]

/-- Helper: overwriting the same row twice with the same result is the same
as overwriting it once. -/
theorem persistUpd_idem (r : EnrichedAnalyzerResult) (h : EntityRiskHistory) :
    persistUpd r (persistUpd r h) = persistUpd r h := by
  by_cases hm : historyKeyMatches r.entity_id r.window_end h = true
  · have h2 := persistUpd_preserves_match r r.entity_id r.window_end h
    simp only [persistUpd, hm, if_true] at h2 ⊢
    rw [show historyKeyMatches r.entity_id r.window_end
        { h with risk_score := r.risk_score, reason := some (mk_reason r) }
        = true from by rw [← hm]; rfl]
    simp
  · have hm' : historyKeyMatches r.entity_id r.window_end h = false := by
      simpa using hm
    simp [persistUpd, hm']

/-- Helper: filtering by the upsert key commutes with the in-place
overwrite, which preserves key matching. -/
theorem filter_map_persistUpd (r : EnrichedAnalyzerResult) (eid oat : Int) :
    ∀ (db : List EntityRiskHistory),
      (db.map (persistUpd r)).filter (historyKeyMatches eid oat)
        = (db.filter (historyKeyMatches eid oat)).map (persistUpd r) := by
  intro db
  induction db with
  | nil => rfl
  | cons h t ih =>
    simp only [List.map_cons, List.filter_cons, persistUpd_preserves_match]
    by_cases hm : historyKeyMatches eid oat h = true
    · simp [hm, ih]
    · simp [show historyKeyMatches eid oat h = false by simpa using hm, ih]

/-- C2: persist_result is an idempotent upsert keyed by (entity id,
observed_at = window end): when no live row matches the key, exactly one new
row is appended; when a live row matches, its risk score and reason are
overwritten in place, every other row is untouched and no row is added; and
persisting the same result twice yields exactly the rows of persisting it
once. -/
theorem c2_persist_result_upsert_idempotent :
    ∀ (db : List EntityRiskHistory) (r : EnrichedAnalyzerResult),
      KeyUnique db →
      ((∀ h ∈ db, historyKeyMatches r.entity_id r.window_end h = false) →
          persist_result db r = .ok (db ++ [newHistoryRow r]))
        ∧ ((∃ h ∈ db, historyKeyMatches r.entity_id r.window_end h = true) →
            ∃ db2, persist_result db r = .ok db2 ∧ db2.length = db.length
              ∧ ∀ (i : ℕ) (hi : i < db.length),
                (historyKeyMatches r.entity_id r.window_end (db.get ⟨i, hi⟩) = false →
                  db2[i]? = some (db.get ⟨i, hi⟩))
                ∧ (historyKeyMatches r.entity_id r.window_end (db.get ⟨i, hi⟩) = true →
                  db2[i]? = some { db.get ⟨i, hi⟩ with
                    risk_score := r.risk_score,
                    reason := some (mk_reason r) }))
        ∧ ∀ db2, persist_result db r = .ok db2 → persist_result db2 r = .ok db2 := by
  intro db r hku
  have hle := keyUnique_filter_le_one r.entity_id r.window_end db hku
  refine ⟨?_, ?_, ?_⟩
  · intro hall
    have hnil : db.filter (historyKeyMatches r.entity_id r.window_end) = [] := by
      rw [List.filter_eq_nil_iff]
      intro h hh
      simp [hall h hh]
    have hfind : find_history db r.entity_id r.window_end = .ok none := by
      unfold find_history
      rw [hnil]
    unfold persist_result
    rw [hfind]
  · rintro ⟨h0, hh0, hm0⟩
    have hmem : h0 ∈ db.filter (historyKeyMatches r.entity_id r.window_end) :=
      List.mem_filter.2 ⟨hh0, hm0⟩
    rcases list_length_le_one _ hle with hnil | ⟨x, hx⟩
    · rw [hnil] at hmem
      simp at hmem
    have hfind : find_history db r.entity_id r.window_end = .ok (some x) := by
      unfold find_history
      rw [hx]
    refine ⟨db.map (persistUpd r), ?_, by simp, ?_⟩
    · unfold persist_result
      rw [hfind]
    · intro i hi
      have hget : (db.map (persistUpd r))[i]? = some (persistUpd r (db.get ⟨i, hi⟩)) := by
        rw [List.getElem?_map, List.getElem?_eq_getElem hi]
        simp [List.get_eq_getElem]
      constructor
      · intro hmf
        rw [hget]
        unfold persistUpd
        rw [if_neg (by rw [hmf]; simp)]
      · intro hmt
        rw [hget]
        unfold persistUpd
        rw [if_pos hmt]
  · intro db2 hdb2
    rcases list_length_le_one _ hle with hnil | ⟨x, hx⟩
    · have hfind : find_history db r.entity_id r.window_end = .ok none := by
        unfold find_history
        rw [hnil]
      have hdb2' : db2 = db ++ [newHistoryRow r] := by
        unfold persist_result at hdb2
        rw [hfind] at hdb2
        exact (Except.ok.inj hdb2).symm
      subst hdb2'
      have hmatch_new :
          historyKeyMatches r.entity_id r.window_end (newHistoryRow r) = true := by
        simp [historyKeyMatches, newHistoryRow]
      have hfilter2 : (db ++ [newHistoryRow r]).filter
          (historyKeyMatches r.entity_id r.window_end) = [newHistoryRow r] := by
        rw [List.filter_append, hnil]
        simp [hmatch_new]
      have hfind2 : find_history (db ++ [newHistoryRow r]) r.entity_id r.window_end
          = .ok (some (newHistoryRow r)) := by
        unfold find_history
        rw [hfilter2]
      unfold persist_result
      rw [hfind2]
      rw [List.map_append]
      have hdbfix : db.map (persistUpd r) = db := by
        have hid : ∀ h ∈ db, persistUpd r h = id h := by
          intro h hh
          have hmf : ¬ historyKeyMatches r.entity_id r.window_end h = true :=
            List.filter_eq_nil_iff.1 hnil h hh
          simp [persistUpd, hmf]
        rw [List.map_congr_left hid, List.map_id]
      rw [hdbfix]
      have hnewfix : persistUpd r (newHistoryRow r) = newHistoryRow r := by
        simp [persistUpd, hmatch_new, newHistoryRow]
      simp [hnewfix]
    · have hfind : find_history db r.entity_id r.window_end = .ok (some x) := by
        unfold find_history
        rw [hx]
      have hdb2' : db2 = db.map (persistUpd r) := by
        unfold persist_result at hdb2
        rw [hfind] at hdb2
        exact (Except.ok.inj hdb2).symm
      subst hdb2'
      have hfilter2 : (db.map (persistUpd r)).filter
          (historyKeyMatches r.entity_id r.window_end)
          = [persistUpd r x] := by
        rw [filter_map_persistUpd, hx]
        rfl
      have hfind2 : find_history (db.map (persistUpd r)) r.entity_id r.window_end
          = .ok (some (persistUpd r x)) := by
        unfold find_history
        rw [hfilter2]
      unfold persist_result
      rw [hfind2]
      show Except.ok ((db.map (persistUpd r)).map (persistUpd r))
          = Except.ok (db.map (persistUpd r))
      rw [List.map_map]
      exact congrArg Except.ok
        (List.map_congr_left fun h _ => persistUpd_idem r h)

/-- C2 witness: the upsert theorem applied to the empty table and one
concrete result: persisting creates exactly the one new row. -/
theorem c2_persist_result_upsert_idempotent_witness :
    KeyUnique [] ∧
      persist_result [] ⟨1, 0, 86400, ⟨1, none, 0, []⟩, ⟨[], []⟩, 10, 0, 0, 10, False⟩
        = .ok [newHistoryRow ⟨1, 0, 86400, ⟨1, none, 0, []⟩, ⟨[], []⟩, 10, 0, 0, 10, False⟩] :=
  ⟨by simp [KeyUnique],
    (c2_persist_result_upsert_idempotent []
      ⟨1, 0, 86400, ⟨1, none, 0, []⟩, ⟨[], []⟩, 10, 0, 0, 10, False⟩
      (by simp [KeyUnique])).1 (by simp)⟩

/-- Helper: calendar-day truncation brackets the instant. -/
theorem window_bounds_spec (t : Int) :
    (window_bounds t).1 ≤ t ∧ t < (window_bounds t).1 + secondsPerDay := by
  constructor
  · show t - t % 86400 ≤ t
    omega
  · show t < t - t % 86400 + secondsPerDay
    unfold secondsPerDay
    omega

/-- Helper: membership in the sorted filtered query result. -/
theorem mem_fetchSorted_iff (db : List NormalizedEvent) (s u : Option Int)
    (e : NormalizedEvent) :
    e ∈ fetchSorted db s u ↔ e ∈ db ∧ eventInRange s u e = true := by
  unfold fetchSorted
  rw [(List.perm_insertionSort sqlEventLe _).mem_iff]
  exact List.mem_filter

/-- Helper: the query rows come out sorted by (entity id, observed at). -/
theorem fetchSorted_sorted (db : List NormalizedEvent) (s u : Option Int) :
    (fetchSorted db s u).Sorted sqlEventLe :=
  List.sorted_insertionSort sqlEventLe _

/-- Helper: membership among the grouping keys. -/
theorem mem_fetchKeys_iff (db : List NormalizedEvent) (s u : Option Int)
    (k : Int × Int) :
    k ∈ fetchKeys db s u ↔ k ∈ (fetchSorted db s u).map eventKey := by
  unfold fetchKeys
  rw [(List.perm_insertionSort keyLe _).mem_iff]
  exact List.mem_dedup

/-- Helper: the grouping keys are distinct. -/
theorem fetchKeys_nodup (db : List NormalizedEvent) (s u : Option Int) :
    (fetchKeys db s u).Nodup :=
  ((List.perm_insertionSort keyLe _).nodup_iff).2 (List.nodup_dedup _)

/-- Helper: the grouping keys come out sorted. -/
theorem fetchKeys_sorted (db : List NormalizedEvent) (s u : Option Int) :
    (fetchKeys db s u).Sorted keyLe :=
  List.sorted_insertionSort keyLe _

/-- Helper: the windows are exactly the images of the grouping keys. -/
theorem mem_fetch_windows_iff (db : List NormalizedEvent) (s u : Option Int)
    (w : EntityEventWindow) :
    w ∈ fetch_entity_event_windows db s u ↔
      ∃ k ∈ fetchKeys db s u,
        w = ⟨k.1, k.2, k.2 + secondsPerDay,
          (fetchSorted db s u).filter fun e => decide (eventKey e = k)⟩ := by
  unfold fetch_entity_event_windows
  rw [List.mem_map]
  constructor
  · rintro ⟨k, hk, rfl⟩
    exact ⟨k, hk, rfl⟩
  · rintro ⟨k, hk, rfl⟩
    exact ⟨k, hk, rfl⟩

/-- Helper: every grouping key has at least one event in its group. -/
theorem fetch_group_ne_nil (db : List NormalizedEvent) (s u : Option Int)
    (k : Int × Int) (hk : k ∈ fetchKeys db s u) :
    (fetchSorted db s u).filter (fun e => decide (eventKey e = k)) ≠ [] := by
  rw [mem_fetchKeys_iff] at hk
  obtain ⟨e, he, hke⟩ := List.mem_map.1 hk
  intro hnil
  have hmem : e ∈ (fetchSorted db s u).filter
      (fun e => decide (eventKey e = k)) :=
    List.mem_filter.2 ⟨he, by simp [hke]⟩
  rw [hnil] at hmem
  simp at hmem

/-- Helper: a row passing the filter carries a non-null entity id, equal to
the getD default-stripped value used in the grouping key. -/
theorem entity_id_of_inRange (s u : Option Int) (e : NormalizedEvent)
    (h : eventInRange s u e = true) :
    e.entity_id = some (e.entity_id.getD 0) := by
  unfold eventInRange at h
  cases he : e.entity_id with
  | none => rw [he] at h; simp at h
  | some v => simp [he]

/-- Helper: the events inside one group are mutually ordered by observed
instant: the query sorts by (entity id, observed at) and a group holds a
single entity. -/
theorem fetch_group_pairwise (db : List NormalizedEvent) (s u : Option Int)
    (k : Int × Int) :
    ((fetchSorted db s u).filter (fun e => decide (eventKey e = k))).Pairwise
      (fun a b => a.observed_at ≤ b.observed_at) := by
  have hp : ((fetchSorted db s u).filter
      (fun e => decide (eventKey e = k))).Pairwise sqlEventLe :=
    List.Pairwise.sublist (List.filter_sublist _) (fetchSorted_sorted db s u)
  refine hp.imp_of_mem ?_
  intro a b ha hb hab
  have hka : eventKey a = k := by
    have := (List.mem_filter.1 ha).2
    simpa using this
  have hkb : eventKey b = k := by
    have := (List.mem_filter.1 hb).2
    simpa using this
  have hent : a.entity_id.getD 0 = b.entity_id.getD 0 := by
    have h1 : a.entity_id.getD 0 = k.1 := congrArg Prod.fst hka
    have h2 : b.entity_id.getD 0 = k.1 := congrArg Prod.fst hkb
    omega
  unfold sqlEventLe at hab
  omega

/-- Helper: the grouping keys are strictly increasing in the lexicographic
(entity id, window start) order. -/
theorem fetchKeys_pairwise_lt (db : List NormalizedEvent) (s u : Option Int) :
    (fetchKeys db s u).Pairwise
      (fun k1 k2 : Int × Int =>
        k1.1 < k2.1 ∨ (k1.1 = k2.1 ∧ k1.2 < k2.2)) := by
  have hle := fetchKeys_sorted db s u
  have hne : (fetchKeys db s u).Pairwise (· ≠ ·) := fetchKeys_nodup db s u
  refine (List.Pairwise.and hle hne).imp ?_
  intro k1 k2 ⟨h1, h2⟩
  unfold keyLe at h1
  have : ¬(k1.1 = k2.1 ∧ k1.2 = k2.2) := by
    intro ⟨ha, hb⟩
    exact h2 (Prod.ext ha hb)
  rcases h1 with h | ⟨ha, hb⟩
  · exact Or.inl h
  · right
    constructor
    · exact ha
    · rcases lt_or_eq_of_le hb with h | h
      · exact h
      · exact absurd ⟨ha, h⟩ this

/-- Helper: the event WHERE clause in the words of the claim. -/
theorem eventInRange_iff (s u : Option Int) (e : NormalizedEvent) :
    eventInRange s u e = true ↔
      e.entity_id ≠ none ∧ e.deleted_at = none ∧ e.status = "active"
        ∧ (∀ s0, s = some s0 → s0 ≤ e.observed_at)
        ∧ (∀ u0, u = some u0 → e.observed_at < u0) := by
  unfold eventInRange
  cases s <;> cases u <;>
    cases hent : e.entity_id <;> cases hd : e.deleted_at <;>
      simp [hent, hd, and_assoc]

/-- C3: fetch_entity_event_windows selects exactly the non-deleted,
active-status events with a non-null entity id and observed timestamp in
[since, until) (an omitted bound is open): such an event lies in some
returned window and no other event does; each returned window has end one
day after start, is non-empty, holds only events of its entity whose UTC
calendar-day truncation equals the window start; windows come out ordered
strictly by entity id and then window start; and concretely events of one
entity at 2024-01-15T10:00Z and 2024-01-15T23:59Z share one window while an
event at 2024-01-16T00:00Z opens the next one. -/
theorem c3_fetch_entity_event_windows :
    (∀ (db : List NormalizedEvent) (s u : Option Int) (e : NormalizedEvent),
        e ∈ db →
        ((e.entity_id ≠ none ∧ e.deleted_at = none ∧ e.status = "active"
            ∧ (∀ s0, s = some s0 → s0 ≤ e.observed_at)
            ∧ (∀ u0, u = some u0 → e.observed_at < u0))
          ↔ ∃ w ∈ fetch_entity_event_windows db s u, e ∈ w.events))
      ∧ (∀ (db : List NormalizedEvent) (s u : Option Int) (w : EntityEventWindow),
          w ∈ fetch_entity_event_windows db s u →
            w.window_end = w.window_start + secondsPerDay
            ∧ w.events ≠ []
            ∧ ∀ e ∈ w.events, e.entity_id = some w.entity_id
                ∧ w.window_start = e.observed_at - e.observed_at % secondsPerDay)
      ∧ (∀ (db : List NormalizedEvent) (s u : Option Int),
          (fetch_entity_event_windows db s u).Pairwise
            (fun w1 w2 => w1.entity_id < w2.entity_id
              ∨ (w1.entity_id = w2.entity_id ∧ w1.window_start < w2.window_start)))
      ∧ fetch_entity_event_windows
          [⟨1, some 7, "login", none, 1705312800, "active", none, none, none⟩,
           ⟨2, some 7, "login", none, 1705363140, "active", none, none, none⟩,
           ⟨3, some 7, "login", none, 1705363200, "active", none, none, none⟩]
          none none
        = [⟨7, 1705276800, 1705363200,
            [⟨1, some 7, "login", none, 1705312800, "active", none, none, none⟩,
             ⟨2, some 7, "login", none, 1705363140, "active", none, none, none⟩]⟩,
           ⟨7, 1705363200, 1705449600,
            [⟨3, some 7, "login", none, 1705363200, "active", none, none, none⟩]⟩] := by
  refine ⟨?_, ?_, ?_, by decide⟩
  · intro db s u e hedb
    rw [← eventInRange_iff s u e]
    constructor
    · intro hr
      have hes : e ∈ fetchSorted db s u :=
        (mem_fetchSorted_iff db s u e).2 ⟨hedb, hr⟩
      have hk : eventKey e ∈ fetchKeys db s u :=
        (mem_fetchKeys_iff db s u _).2 (List.mem_map_of_mem _ hes)
      refine ⟨⟨(eventKey e).1, (eventKey e).2, (eventKey e).2 + secondsPerDay,
        (fetchSorted db s u).filter fun e2 => decide (eventKey e2 = eventKey e)⟩,
        ?_, ?_⟩
      · exact (mem_fetch_windows_iff db s u _).2 ⟨eventKey e, hk, rfl⟩
      · exact List.mem_filter.2 ⟨hes, by simp⟩
    · rintro ⟨w, hw, hew⟩
      obtain ⟨k, hk, rfl⟩ := (mem_fetch_windows_iff db s u w).1 hw
      have hmem := (List.mem_filter.1 hew).1
      exact ((mem_fetchSorted_iff db s u e).1 hmem).2
  · intro db s u w hw
    obtain ⟨k, hk, rfl⟩ := (mem_fetch_windows_iff db s u w).1 hw
    refine ⟨rfl, fetch_group_ne_nil db s u k hk, ?_⟩
    intro e he
    have hmem := List.mem_filter.1 he
    have hke : eventKey e = k := by simpa using hmem.2
    have hr : eventInRange s u e = true :=
      ((mem_fetchSorted_iff db s u e).1 hmem.1).2
    constructor
    · show e.entity_id = some k.1
      rw [entity_id_of_inRange s u e hr]
      exact congrArg some (congrArg Prod.fst hke)
    · show k.2 = e.observed_at - e.observed_at % secondsPerDay
      rw [← congrArg Prod.snd hke]
      rfl
  · intro db s u
    have hkeys := fetchKeys_pairwise_lt db s u
    unfold fetch_entity_event_windows
    rw [List.pairwise_map]
    exact hkeys

/-- C3 witness: the per-window part of the theorem applied to the concrete
three-event store. -/
theorem c3_fetch_entity_event_windows_witness :
    (⟨7, 1705276800, 1705363200,
      [⟨1, some 7, "login", none, 1705312800, "active", none, none, none⟩,
       ⟨2, some 7, "login", none, 1705363140, "active", none, none, none⟩]⟩ :
        EntityEventWindow)
      ∈ fetch_entity_event_windows
          [⟨1, some 7, "login", none, 1705312800, "active", none, none, none⟩,
           ⟨2, some 7, "login", none, 1705363140, "active", none, none, none⟩,
           ⟨3, some 7, "login", none, 1705363200, "active", none, none, none⟩]
          none none
      ∧ (⟨7, 1705276800, 1705363200,
          [⟨1, some 7, "login", none, 1705312800, "active", none, none, none⟩,
           ⟨2, some 7, "login", none, 1705363140, "active", none, none, none⟩]⟩ :
            EntityEventWindow).window_end
        = (⟨7, 1705276800, 1705363200,
            [⟨1, some 7, "login", none, 1705312800, "active", none, none, none⟩,
             ⟨2, some 7, "login", none, 1705363140, "active", none, none, none⟩]⟩ :
              EntityEventWindow).window_start + secondsPerDay :=
  ⟨by decide,
    (c3_fetch_entity_event_windows.2.1
      [⟨1, some 7, "login", none, 1705312800, "active", none, none, none⟩,
       ⟨2, some 7, "login", none, 1705363140, "active", none, none, none⟩,
       ⟨3, some 7, "login", none, 1705363200, "active", none, none, none⟩]
      none none _ (by decide)).1⟩

/-- C10: every window returned by fetch_entity_event_windows satisfies the
invariant: the end is one day after the start, every contained event belongs
to the window entity with an observed instant inside [start, end), and the
events appear in ascending observed order. -/
theorem c10_window_invariant :
    ∀ (db : List NormalizedEvent) (s u : Option Int) (w : EntityEventWindow),
      w ∈ fetch_entity_event_windows db s u →
        w.window_end = w.window_start + secondsPerDay
        ∧ (∀ e ∈ w.events, e.entity_id = some w.entity_id
            ∧ w.window_start ≤ e.observed_at ∧ e.observed_at < w.window_end)
        ∧ w.events.Pairwise (fun a b => a.observed_at ≤ b.observed_at) := by
  intro db s u w hw
  obtain ⟨k, hk, rfl⟩ := (mem_fetch_windows_iff db s u w).1 hw
  refine ⟨rfl, ?_, fetch_group_pairwise db s u k⟩
  intro e he
  have hmem := List.mem_filter.1 he
  have hke : eventKey e = k := by simpa using hmem.2
  have hr : eventInRange s u e = true :=
    ((mem_fetchSorted_iff db s u e).1 hmem.1).2
  have hwb := window_bounds_spec e.observed_at
  have hsnd : (window_bounds e.observed_at).1 = k.2 := congrArg Prod.snd hke
  refine ⟨?_, ?_, ?_⟩
  · show e.entity_id = some k.1
    rw [entity_id_of_inRange s u e hr]
    exact congrArg some (congrArg Prod.fst hke)
  · show k.2 ≤ e.observed_at
    rw [← hsnd]
    exact hwb.1
  · show e.observed_at < k.2 + secondsPerDay
    rw [← hsnd]
    exact hwb.2

/-- C10 witness: the invariant applied to a concrete one-event store. -/
theorem c10_window_invariant_witness :
    (⟨9, 0, 86400,
      [⟨1, some 9, "dns", none, 100, "active", none, none, none⟩]⟩ :
        EntityEventWindow)
      ∈ fetch_entity_event_windows
          [⟨1, some 9, "dns", none, 100, "active", none, none, none⟩] none none
      ∧ (⟨9, 0, 86400,
          [⟨1, some 9, "dns", none, 100, "active", none, none, none⟩]⟩ :
            EntityEventWindow).events.Pairwise
          (fun a b => a.observed_at ≤ b.observed_at) :=
  ⟨by decide,
    (c10_window_invariant
      [⟨1, some 9, "dns", none, 100, "active", none, none, none⟩] none none _
      (by decide)).2.2⟩

/-- C1: the run_once written in service.py cannot process any window: it
passes the pipeline AnalyzerResult to repository.persist_result, whose
reason payload reads result.baseline_avg (then baseline_sigma, delta,
is_anomalous), attributes the pipeline result does not have, so every run
whose range guard passes and that fetches at least one window raises
AttributeError; no baseline enrichment happens and no alert is ever logged
(the service holds no AlertLogger), contradicting the claim and the test
suite. -/
theorem c1_run_once_attribute_error :
    ∀ (events_db : List NormalizedEvent) (history_db : List EntityRiskHistory)
      (since until' : Option Int) (now : Int),
      checkpoint_short_circuits (since <|> get_latest_checkpoint history_db)
        (until'.getD (default_until now)) = false →
      fetch_entity_event_windows events_db
        (since <|> get_latest_checkpoint history_db)
        (some (until'.getD (default_until now))) ≠ [] →
      run_once_src events_db history_db since until' now
        = .error (.attributeError "baseline_avg") := by
  intro events_db history_db since until' now hguard hne
  simp only [run_once_src, hguard, Bool.false_eq_true, if_false]
  cases hw : fetch_entity_event_windows events_db
      (since <|> get_latest_checkpoint history_db)
      (some (until'.getD (default_until now))) with
  | nil => exact absurd hw hne
  | cons w rest =>
    have hwmem : w ∈ fetch_entity_event_windows events_db
        (since <|> get_latest_checkpoint history_db)
        (some (until'.getD (default_until now))) := by
      rw [hw]
      exact List.mem_cons_self w rest
    obtain ⟨k, hk, hweq⟩ := (mem_fetch_windows_iff _ _ _ w).1 hwmem
    have hevne : w.events ≠ [] := by
      rw [hweq]
      exact fetch_group_ne_nil _ _ _ k hk
    obtain ⟨e, es, hev⟩ : ∃ e es, w.events = e :: es := by
      cases hevs : w.events with
      | nil => exact absurd hevs hevne
      | cons e es => exact ⟨e, es, rfl⟩
    simp only [List.isEmpty_cons, List.foldlM_cons, hev]
    rfl

/-- C1 witness: the crash theorem evaluated at a concrete store with one
active event and an empty history. -/
theorem c1_run_once_attribute_error_witness :
    run_once_src [⟨1, some 3, "login", none, 1000, "active", none, none, none⟩]
      [] (some 0) (some 86400) 0 = .error (.attributeError "baseline_avg") :=
  c1_run_once_attribute_error
    [⟨1, some 3, "login", none, 1000, "active", none, none, none⟩]
    [] (some 0) (some 86400) 0 (by decide) (by decide)
